import Mathlib

/-!
Verification development for the `dehydrator` repository.

The repository ships a local tool server ("reducto") that lets an agent
mutate a source workspace safely: checkpoint, apply a unified diff, run
the workspace test suite, and roll back byte-exactly on failure.  The Go
core (dispatcher, safety gate, checkpoint manager, rollback executor,
`cmd/reducto`) is exercised by the repository e2e tests
(`tests/e2e/test_safety_protocols.py`, `tests/e2e/test_cli_workflow.py`)
but its source is not part of the spec snapshot, so those components are
modelled from the spec (sections 2-7) and the observable behaviour pinned
by the e2e tests.  The Python sidecar embedding service
(`python/ai_sidecar/embeddings/service.py`) is present and embedded
directly from its source.
-/

namespace Dehydrator

/-- Modelled from the spec (section 3, Workspace): the working tree as a
finite map from file path to file content, represented as an association
list.  Byte-identity of trees is plain equality of contents. -/
abbrev Tree := List (String × String)

/-- Lookup of a file content in a tree (first binding wins). -/
def Tree.get (t : Tree) (p : String) : Option String :=
  match t with
  | [] => none
  | (q, c) :: rest => if q = p then some c else Tree.get rest p

/-- Write of a file content in a tree (atomic all-or-nothing update, as
required of the Diff Applicator in spec section 4.3). -/
def Tree.set (t : Tree) (p : String) (c : String) : Tree :=
  match t with
  | [] => [(p, c)]
  | (q, d) :: rest => if q = p then (p, c) :: rest else (q, d) :: Tree.set rest p c

/-- Modelled from the spec (section 3, Checkpoint): identifier (revision
handle), human-readable message, and the exact file-tree state it
resolves to ("a Checkpoint, once created, is immutable and always
resolvable to an exact file-tree state"). -/
structure Checkpoint where
  rev : Nat
  message : String
  tree : Tree
deriving DecidableEq

/-- Modelled from the spec (sections 3 and 9): the per-process Session
object: current working tree, the last committed tree (head) with its
revision, a fresh-revision counter, the active rollback anchor (at most
one per session, the most recent), and whether the workspace root is a
valid repository. -/
structure Session where
  tree : Tree
  head : Tree
  headRev : Nat
  nextRev : Nat
  checkpoint : Option Checkpoint
  validRepo : Bool
deriving DecidableEq

/-- Modelled from the spec (section 6): the result record of
`apply_diff_safe` as reported to the caller. -/
structure SafeResult where
  success : Bool
  tests_run : Bool
  tests_passed : Bool
  rolled_back : Bool
deriving DecidableEq

/-- Modelled from the spec (sections 2 and 5, Process Runner): the
outcome of one test run: a process exit code, a timeout, or a failure to
spawn the test process (TestExecutionError of section 7). -/
inductive TestOutcome where
  | exited (code : Nat)
  | timedOut
  | spawnFailed
deriving DecidableEq

/-- Modelled from the spec (sections 2 and 9): the two external
collaborators the Safety Gate is parameterised over: the Diff
Applicator content transformation (diff text and current content to new
content, or a DiffError message naming the unmatched hunk) and the
Process Runner running the configured test command against a tree. -/
structure GateEnv where
  applyDiff : String → String → Except String String
  runTests : Tree → TestOutcome

/-- Modelled from the spec (sections 4.4 and 4.5): the tree the Rollback
Executor restores: the active checkpoint if one exists, otherwise the
last committed head (the e2e tests roll back successfully inside the
gate with only the initial commit present; spec section 9 flags the
no-explicit-checkpoint case as an open design question). -/
def anchorTree (s : Session) : Tree :=
  match s.checkpoint with
  | some cp => cp.tree
  | none => s.head

/-- Modelled from the spec (section 4.4, Safety Gate): the
Clean-Mutated-Verified/RolledBack state machine of
`apply_diff_safe(path, diff, run_tests)`.  An unreadable file or a
DiffError terminates with nothing mutated; a successful apply mutates
the tree; with `run_tests = false` the change is accepted as a vacuous
pass; with `run_tests = true` exit code zero verifies it and any other
outcome triggers the Rollback Executor. -/
def apply_diff_safe (env : GateEnv) (s : Session) (path diff : String)
    (run_tests : Bool) : SafeResult × Session :=
  match s.tree.get path with
  | none => (⟨false, false, false, false⟩, s)
  | some content =>
    match env.applyDiff diff content with
    | .error _ => (⟨false, false, false, false⟩, s)
    | .ok newContent =>
      let mutated : Session := { s with tree := s.tree.set path newContent }
      if run_tests then
        match env.runTests mutated.tree with
        | .exited 0 => (⟨true, true, true, false⟩, mutated)
        | _ => (⟨false, true, false, true⟩, { mutated with tree := anchorTree s })
      else
        (⟨true, false, true, false⟩, mutated)

/-- Modelled from the spec (sections 4.3 and 6): the unchecked
`apply_diff` tool: apply the diff to the file content, succeeding fully
or failing with nothing mutated; never checkpoints, never verifies. -/
def apply_diff (env : GateEnv) (s : Session) (path diff : String) :
    Bool × Session :=
  match s.tree.get path with
  | none => (false, s)
  | some content =>
    match env.applyDiff diff content with
    | .error _ => (false, s)
    | .ok newContent => (true, { s with tree := s.tree.set path newContent })

/-- Modelled from the spec (section 4.2, Checkpoint Manager):
`checkpoint(message)` commits the current working-tree state under the
message and makes the new checkpoint the session active rollback anchor;
nothing-to-commit is not an error (an empty checkpoint is acceptable);
an invalid repository signals a GitError. -/
def git_checkpoint (s : Session) (message : String) :
    Except String (Nat × Session) :=
  if s.validRepo then
    .ok (s.nextRev,
      { s with
        head := s.tree
        headRev := s.nextRev
        nextRev := s.nextRev + 1
        checkpoint := some ⟨s.nextRev, message, s.tree⟩ })
  else
    .error "GitError: not a git repository"

/-- Modelled from the spec (section 4.5, Rollback Executor):
`git_rollback()` resets the entire working tree to the active
checkpoint exact state; with no active checkpoint it signals a GitError
and changes nothing. -/
def git_rollback (s : Session) : Except String Session :=
  match s.checkpoint with
  | none => .error "GitError: no checkpoint to roll back to"
  | some cp => .ok { s with tree := cp.tree }

/-- Modelled from the spec (section 6): the result payload of a
successful tool response, one constructor per tool result shape; the
read-only inspection tools are external collaborators whose payloads are
opaque here. -/
inductive RpcResult where
  | tools (names : List String)
  | files (paths : List String)
  | content (text : String)
  | safe (r : SafeResult)
  | applied (success : Bool)
  | checkpointed (success : Bool) (commit_hash : Nat)
  | rolledBack (success : Bool)
  | externalResult
deriving DecidableEq

/-- Modelled from the spec (sections 3 and 6): a response body is either
a result or an error with code and message. -/
inductive RpcOut where
  | ok (r : RpcResult)
  | err (code : Int) (message : String)
deriving DecidableEq

/-- Modelled from the spec (sections 3 and 6): one request: identifier,
method name, and the (flattened) parameters the registered tools use. -/
structure Request where
  id : Nat
  method : String
  path : String := ""
  diff : String := ""
  run_tests : Bool := true
  message : String := ""
deriving DecidableEq

/-- Modelled from the spec (section 3): a response carries the
identifier of the triggering request and the body. -/
structure Response where
  id : Nat
  out : RpcOut
deriving DecidableEq

/-- Modelled from the spec (sections 3 and 6): the ToolRegistry method
names, built once at startup and immutable thereafter; the e2e test
test_mcp_initialize pins this tool set. -/
def toolRegistry : List String :=
  ["initialize", "list_files", "get_symbols", "read_file",
   "get_complexity", "apply_diff", "apply_diff_safe",
   "git_checkpoint", "git_rollback"]

/-- Modelled from the spec (section 4.1, Dispatcher): resolve the method
name against the registry and invoke the handler synchronously;
an unresolved method yields an error response identifying the method as
not found, and the session state is untouched.  The initialize result
enumerates every registered tool name, independent of workspace
contents, in a stable order. -/
def dispatch (env : GateEnv) (s : Session) (req : Request) :
    Response × Session :=
  if req.method = "initialize" then
    (⟨req.id, .ok (.tools toolRegistry)⟩, s)
  else if req.method = "list_files" then
    (⟨req.id, .ok (.files (s.tree.map Prod.fst))⟩, s)
  else if req.method = "get_symbols" then
    (⟨req.id, .ok .externalResult⟩, s)
  else if req.method = "read_file" then
    match s.tree.get req.path with
    | some c => (⟨req.id, .ok (.content c)⟩, s)
    | none => (⟨req.id, .err (-32000) ("FileError: file not found: " ++ req.path)⟩, s)
  else if req.method = "get_complexity" then
    (⟨req.id, .ok .externalResult⟩, s)
  else if req.method = "apply_diff" then
    let (okFlag, s2) := apply_diff env s req.path req.diff
    (⟨req.id, .ok (.applied okFlag)⟩, s2)
  else if req.method = "apply_diff_safe" then
    let (r, s2) := apply_diff_safe env s req.path req.diff req.run_tests
    (⟨req.id, .ok (.safe r)⟩, s2)
  else if req.method = "git_checkpoint" then
    match git_checkpoint s req.message with
    | .ok (rev, s2) => (⟨req.id, .ok (.checkpointed true rev)⟩, s2)
    | .error m => (⟨req.id, .err (-32000) m⟩, s)
  else if req.method = "git_rollback" then
    match git_rollback s with
    | .ok s2 => (⟨req.id, .ok (.rolledBack true)⟩, s2)
    | .error m => (⟨req.id, .err (-32000) m⟩, s)
  else
    (⟨req.id, .err (-32601) ("Method not found: " ++ req.method)⟩, s)

/-- Modelled from the spec (sections 4.1 and 5): the Dispatcher loop
processes requests strictly sequentially, in arrival order, emitting one
response per request; errors are per-request and the session
continues. -/
def dispatchAll (env : GateEnv) (s : Session) :
    List Request → List Response × Session
  | [] => ([], s)
  | req :: rest =>
    let (resp, s2) := dispatch env s req
    let (resps, s3) := dispatchAll env s2 rest
    (resp :: resps, s3)

/-- Modelled from the spec (sections 4.4 and 8, round-trip property): a
mutating operation between a checkpoint and a rollback: an unchecked
`apply_diff` or a gated `apply_diff_safe`. -/
inductive MutOp where
  | unchecked (path diff : String)
  | gated (path diff : String) (run_tests : Bool)
deriving DecidableEq

/-- Execution of one mutating operation, keeping only the session. -/
def runMut (env : GateEnv) (s : Session) : MutOp → Session
  | .unchecked p d => (apply_diff env s p d).2
  | .gated p d rt => (apply_diff_safe env s p d rt).2

/-- Execution of a sequence of mutating operations in order. -/
def runMuts (env : GateEnv) (s : Session) (ops : List MutOp) : Session :=
  ops.foldl (runMut env) s

/-- A string contains a fragment when it splits around it. -/
def containsText (hay needle : String) : Prop :=
  ∃ pre post, hay = pre ++ needle ++ post

/-- Value of one hexadecimal digit character, as accepted by the Python
`int(s, 16)` parse of a `hexdigest` slice: decimal digits and the
letters a-f in either case; any other character is a parse failure
(Python raises ValueError). -/
def hexDigitVal (c : Char) : Option Nat :=
  let n := c.toNat
  if 48 ≤ n ∧ n ≤ 57 then some (n - 48)
  else if 97 ≤ n ∧ n ≤ 102 then some (n - 87)
  else if 65 ≤ n ∧ n ≤ 70 then some (n - 55)
  else none

/-- Fallible elementwise map: the loop of `_mock_embedding` appends one
value per iteration and a raised exception aborts the whole call, which
an Option-valued map models exactly. -/
def optionMapList (g : α → Option β) : List α → Option (List β)
  | [] => some []
  | x :: xs =>
    match g x with
    | none => none
    | some b =>
      match optionMapList g xs with
      | none => none
      | some bs => some (b :: bs)

/-- Parse of a hex-digit string as `int(s, 16)` does: base-16 positional
value; the empty string fails (Python raises ValueError on it). -/
def parseHexNat (cs : List Char) : Option Nat :=
  match cs with
  | [] => none
  | _ =>
    match optionMapList hexDigitVal cs with
    | none => none
    | some vs => some (vs.foldl (fun a v => 16 * a + v) 0)

/-- Embedding of `EmbeddingService._mock_embedding` from
`python/ai_sidecar/embeddings/service.py`: over `i in range(0, 64, 4)`
it appends `int(h[i:i+4], 16) / 65535.0` and returns `embedding[:384]`.
Values are represented as exact rationals. -/
def mock_embedding (h : String) : Option (List ℚ) :=
  match optionMapList
      (fun i => (parseHexNat ((h.data.drop i).take 4)).map
        (fun n => (n : ℚ) / 65535))
      (List.range' 0 16 4) with
  | none => none
  | some l => some (l.take 384)

/-- Embedding of `EmbeddingService.embed_text`: it returns
`_mock_embedding(hashlib.sha256(text.encode()).hexdigest())`; the
SHA-256 hex digest is the external library call, passed in as a
function. -/
def embed_text (sha256hex : String → String) (text : String) :
    Option (List ℚ) :=
  mock_embedding (sha256hex text)

/-! Concrete fixtures used by the evaluation witnesses below: a small
two-file project, a checkpoint of it, and gate environments whose test
run always passes, always fails, times out, or fails to spawn. -/

def demoTree : Tree := [("main.py", "return a + b"), ("test_main.py", "assert add")]

def demoCheckpoint : Checkpoint := ⟨1, "before change", demoTree⟩

def demoSession : Session := ⟨demoTree, demoTree, 1, 2, some demoCheckpoint, true⟩

def demoSessionNoCp : Session := ⟨demoTree, demoTree, 1, 2, none, true⟩

def demoApply : String → String → Except String String :=
  fun diff content =>
    if diff = "good" then .ok (content ++ "!")
    else .error "DiffError: hunk 1 does not apply"

def passEnv : GateEnv := ⟨demoApply, fun _ => .exited 0⟩

def failEnv : GateEnv := ⟨demoApply, fun _ => .exited 1⟩

def timeoutEnv : GateEnv := ⟨demoApply, fun _ => .timedOut⟩

def spawnFailEnv : GateEnv := ⟨demoApply, fun _ => .spawnFailed⟩

/-! Helper lemmas shared by the claim theorems. -/

/-- Writing a file and reading it back yields the written content. -/
theorem Tree.get_set_self (t : Tree) (p c : String) :
    (Tree.set t p c).get p = some c := by
  induction t with
  | nil => simp [Tree.set, Tree.get]
  | cons hd tl ih =>
    obtain ⟨q, d⟩ := hd
    by_cases hq : q = p
    · simp [Tree.set, hq, Tree.get]
    · simp [Tree.set, hq, Tree.get, ih]

/-- The safety gate never touches the active checkpoint anchor. -/
theorem apply_diff_safe_checkpoint_eq (env : GateEnv) (s : Session)
    (path diff : String) (rt : Bool) :
    (apply_diff_safe env s path diff rt).2.checkpoint = s.checkpoint := by
  cases hg : s.tree.get path with
  | none => simp [apply_diff_safe, hg]
  | some content =>
    cases ha : env.applyDiff diff content with
    | error e => simp [apply_diff_safe, hg, ha]
    | ok nc =>
      cases rt with
      | false => simp [apply_diff_safe, hg, ha]
      | true =>
        cases ho : env.runTests (s.tree.set path nc) with
        | exited code =>
          cases code with
          | zero => simp [apply_diff_safe, hg, ha, ho]
          | succ k => simp [apply_diff_safe, hg, ha, ho]
        | timedOut => simp [apply_diff_safe, hg, ha, ho]
        | spawnFailed => simp [apply_diff_safe, hg, ha, ho]

/-- The unchecked diff tool never touches the active checkpoint anchor. -/
theorem apply_diff_checkpoint_eq (env : GateEnv) (s : Session)
    (path diff : String) :
    (apply_diff env s path diff).2.checkpoint = s.checkpoint := by
  cases hg : s.tree.get path with
  | none => simp [apply_diff, hg]
  | some content =>
    cases ha : env.applyDiff diff content with
    | error e => simp [apply_diff, hg, ha]
    | ok nc => simp [apply_diff, hg, ha]

/-- A sequence of mutating operations never touches the anchor. -/
theorem runMuts_checkpoint_eq (env : GateEnv) (ops : List MutOp) :
    ∀ s : Session, (runMuts env s ops).checkpoint = s.checkpoint := by
  induction ops with
  | nil => intro s; rfl
  | cons op rest ih =>
    intro s
    have hstep : (runMut env s op).checkpoint = s.checkpoint := by
      cases op with
      | unchecked p d => exact apply_diff_checkpoint_eq env s p d
      | gated p d rt => exact apply_diff_safe_checkpoint_eq env s p d rt
    calc (runMuts env s (op :: rest)).checkpoint
        = (runMuts env (runMut env s op) rest).checkpoint := rfl
      _ = (runMut env s op).checkpoint := ih (runMut env s op)
      _ = s.checkpoint := hstep

/-- C3: when the diff fails to apply, `apply_diff_safe` terminates with
all four flags false and the session — in particular every file of the
working tree — is exactly as before: the state machine stays Clean and
no rollback happens. -/
theorem C3_apply_failure_is_no_op (env : GateEnv) (s : Session)
    (path diff content emsg : String)
    (hget : s.tree.get path = some content)
    (happly : env.applyDiff diff content = .error emsg) :
    ∀ rt : Bool,
      apply_diff_safe env s path diff rt = (⟨false, false, false, false⟩, s) := by
  intro rt
  simp [apply_diff_safe, hget, happly]

/-- C3 witness: the fixture diff "bad" does not apply, and the gate
reports the all-false record with the session untouched. -/
theorem C3_witness :
    apply_diff_safe passEnv demoSession "main.py" "bad" true =
      (⟨false, false, false, false⟩, demoSession) :=
  C3_apply_failure_is_no_op passEnv demoSession "main.py" "bad"
    "return a + b" "DiffError: hunk 1 does not apply" rfl rfl true

/-- C4: with `run_tests = false` and an applicable diff, the gate always
reports success with tests_run false, tests_passed true and no rollback,
and the file content at the path afterwards is the diff applied to the
pre-image. -/
theorem C4_vacuous_pass (env : GateEnv) (s : Session)
    (path diff content newContent : String)
    (hget : s.tree.get path = some content)
    (happly : env.applyDiff diff content = .ok newContent) :
    apply_diff_safe env s path diff false =
      (⟨true, false, true, false⟩, { s with tree := s.tree.set path newContent }) ∧
    (apply_diff_safe env s path diff false).2.tree.get path = some newContent := by
  have hmain : apply_diff_safe env s path diff false =
      (⟨true, false, true, false⟩, { s with tree := s.tree.set path newContent }) := by
    simp [apply_diff_safe, hget, happly]
  exact ⟨hmain, by rw [hmain]; exact Tree.get_set_self s.tree path newContent⟩

/-- C4 witness: the fixture diff "good" applied without tests reports
the vacuous pass and leaves the transformed content at the path. -/
theorem C4_witness :
    apply_diff_safe passEnv demoSession "main.py" "good" false =
      (⟨true, false, true, false⟩,
        { demoSession with tree := demoSession.tree.set "main.py" "return a + b!" }) ∧
    (apply_diff_safe passEnv demoSession "main.py" "good" false).2.tree.get "main.py" =
      some "return a + b!" :=
  C4_vacuous_pass passEnv demoSession "main.py" "good" "return a + b"
    "return a + b!" rfl rfl

/-- C5: `git_rollback` in a session with no active checkpoint signals
the GitError and — also at the dispatcher level — the session, hence
the working tree, is returned completely unchanged. -/
theorem C5_rollback_without_checkpoint (s : Session)
    (h : s.checkpoint = none) :
    git_rollback s = .error "GitError: no checkpoint to roll back to" ∧
    ∀ (env : GateEnv) (req : Request), req.method = "git_rollback" →
      dispatch env s req =
        (⟨req.id, .err (-32000) "GitError: no checkpoint to roll back to"⟩, s) := by
  have hroll : git_rollback s = .error "GitError: no checkpoint to roll back to" := by
    unfold git_rollback
    rw [h]
  refine ⟨hroll, ?_⟩
  intro env req hm
  obtain ⟨i, m, p, d, rt, msg⟩ := req
  simp only at hm
  subst hm
  simp [dispatch, hroll]

/-- C5 witness: rolling back the fixture session that has no checkpoint
errors and leaves the session as it was. -/
theorem C5_witness :
    git_rollback demoSessionNoCp =
      .error "GitError: no checkpoint to roll back to" ∧
    ∀ (env : GateEnv) (req : Request), req.method = "git_rollback" →
      dispatch env demoSessionNoCp req =
        (⟨req.id, .err (-32000) "GitError: no checkpoint to roll back to"⟩,
          demoSessionNoCp) :=
  C5_rollback_without_checkpoint demoSessionNoCp rfl

/-- C1: when the diff applies and `run_tests` is true, the reported
result is determined by the test run: exit code zero yields the
success/tests_run/tests_passed record with no rollback and the mutated
file content remains on disk; any other exit code (or timeout) yields
the failed, rolled-back record. -/
theorem C1_gated_outcome_determined_by_exit_code (env : GateEnv)
    (s : Session) (path diff content newContent : String)
    (hget : s.tree.get path = some content)
    (happly : env.applyDiff diff content = .ok newContent) :
    (env.runTests (s.tree.set path newContent) = .exited 0 →
      apply_diff_safe env s path diff true =
        (⟨true, true, true, false⟩,
          { s with tree := s.tree.set path newContent })) ∧
    (env.runTests (s.tree.set path newContent) ≠ .exited 0 →
      (apply_diff_safe env s path diff true).1 = ⟨false, true, false, true⟩) := by
  constructor
  · intro h0
    simp [apply_diff_safe, hget, happly, h0]
  · intro hne
    cases ho : env.runTests (s.tree.set path newContent) with
    | exited code =>
      cases code with
      | zero => exact absurd ho hne
      | succ k => simp [apply_diff_safe, hget, happly, ho]
    | timedOut => simp [apply_diff_safe, hget, happly, ho]
    | spawnFailed => simp [apply_diff_safe, hget, happly, ho]

/-- C1 witness: under the always-passing fixture environment the gate
reports the full success record and keeps the mutated content. -/
theorem C1_witness :
    apply_diff_safe passEnv demoSession "main.py" "good" true =
      (⟨true, true, true, false⟩,
        { demoSession with
          tree := demoSession.tree.set "main.py" "return a + b!" }) :=
  (C1_gated_outcome_determined_by_exit_code passEnv demoSession "main.py"
    "good" "return a + b" "return a + b!" rfl rfl).1 rfl

/-- C6: a test-run timeout and a failure to spawn the test process are
each handled exactly like a failing test: the whole gate outcome
(result record and final session) coincides with the nonzero-exit one,
the record is the failed rolled-back one, and the tree is restored to
the rollback anchor, never leaving the mutation in place. -/
theorem C6_timeout_and_spawn_failure_like_failing_test
    (ad : String → String → Except String String)
    (rt1 rt2 rt3 : Tree → TestOutcome) (s : Session)
    (path diff content newContent : String)
    (hget : s.tree.get path = some content)
    (happly : ad diff content = .ok newContent)
    (h1 : rt1 (s.tree.set path newContent) = .timedOut)
    (h2 : rt2 (s.tree.set path newContent) = .spawnFailed)
    (h3 : rt3 (s.tree.set path newContent) = .exited 1) :
    apply_diff_safe ⟨ad, rt1⟩ s path diff true =
      apply_diff_safe ⟨ad, rt3⟩ s path diff true ∧
    apply_diff_safe ⟨ad, rt2⟩ s path diff true =
      apply_diff_safe ⟨ad, rt3⟩ s path diff true ∧
    (apply_diff_safe ⟨ad, rt1⟩ s path diff true).1 = ⟨false, true, false, true⟩ ∧
    (apply_diff_safe ⟨ad, rt1⟩ s path diff true).2.tree = anchorTree s := by
  have e1 : apply_diff_safe ⟨ad, rt1⟩ s path diff true =
      (⟨false, true, false, true⟩, { s with tree := anchorTree s }) := by
    simp [apply_diff_safe, hget, happly, h1]
  have e2 : apply_diff_safe ⟨ad, rt2⟩ s path diff true =
      (⟨false, true, false, true⟩, { s with tree := anchorTree s }) := by
    simp [apply_diff_safe, hget, happly, h2]
  have e3 : apply_diff_safe ⟨ad, rt3⟩ s path diff true =
      (⟨false, true, false, true⟩, { s with tree := anchorTree s }) := by
    simp [apply_diff_safe, hget, happly, h3]
  refine ⟨e1.trans e3.symm, e2.trans e3.symm, ?_, ?_⟩
  · rw [e1]
  · rw [e1]

/-- C6 witness: on the fixture session the timed-out and spawn-failed
environments produce exactly the failing-test outcome with the tree
back at the anchor. -/
theorem C6_witness :
    apply_diff_safe timeoutEnv demoSession "main.py" "good" true =
      apply_diff_safe failEnv demoSession "main.py" "good" true ∧
    apply_diff_safe spawnFailEnv demoSession "main.py" "good" true =
      apply_diff_safe failEnv demoSession "main.py" "good" true ∧
    (apply_diff_safe timeoutEnv demoSession "main.py" "good" true).1 =
      ⟨false, true, false, true⟩ ∧
    (apply_diff_safe timeoutEnv demoSession "main.py" "good" true).2.tree =
      anchorTree demoSession :=
  C6_timeout_and_spawn_failure_like_failing_test demoApply
    (fun _ => .timedOut) (fun _ => .spawnFailed) (fun _ => .exited 1)
    demoSession "main.py" "good" "return a + b" "return a + b!"
    rfl rfl rfl rfl rfl

/-- C2: with an active checkpoint, after any sequence of applied
mutations an explicit `git_rollback` succeeds and yields a working tree
byte-identical, file by file, to the checkpoint tree; likewise any
gated `apply_diff_safe` run after that sequence whose result reports
rolled_back leaves a tree byte-identical to the checkpoint tree. -/
theorem C2_rollback_round_trip (env : GateEnv) (s : Session)
    (cp : Checkpoint) (ops : List MutOp) (h : s.checkpoint = some cp) :
    (∃ s2, git_rollback (runMuts env s ops) = .ok s2 ∧
      s2.tree = cp.tree ∧ ∀ p, s2.tree.get p = cp.tree.get p) ∧
    (∀ path diff res s3,
      apply_diff_safe env (runMuts env s ops) path diff true = (res, s3) →
      res.rolled_back = true →
      s3.tree = cp.tree ∧ ∀ p, s3.tree.get p = cp.tree.get p) := by
  have hcp : (runMuts env s ops).checkpoint = some cp := by
    rw [runMuts_checkpoint_eq env ops s, h]
  have hanchor : anchorTree (runMuts env s ops) = cp.tree := by
    simp [anchorTree, hcp]
  constructor
  · refine ⟨{ runMuts env s ops with tree := cp.tree }, ?_, rfl, fun p => rfl⟩
    simp [git_rollback, hcp]
  · intro path diff res s3 heq hrb
    cases hg : (runMuts env s ops).tree.get path with
    | none =>
      rw [show apply_diff_safe env (runMuts env s ops) path diff true =
          (⟨false, false, false, false⟩, runMuts env s ops) from by
            simp [apply_diff_safe, hg]] at heq
      cases heq
      exact absurd hrb (by decide)
    | some content =>
      cases ha : env.applyDiff diff content with
      | error e =>
        rw [show apply_diff_safe env (runMuts env s ops) path diff true =
            (⟨false, false, false, false⟩, runMuts env s ops) from by
              simp [apply_diff_safe, hg, ha]] at heq
        cases heq
        exact absurd hrb (by decide)
      | ok nc =>
        cases ho : env.runTests ((runMuts env s ops).tree.set path nc) with
        | exited code =>
          cases code with
          | zero =>
            rw [show apply_diff_safe env (runMuts env s ops) path diff true =
                (⟨true, true, true, false⟩,
                  { runMuts env s ops with
                    tree := (runMuts env s ops).tree.set path nc }) from by
                  simp [apply_diff_safe, hg, ha, ho]] at heq
            cases heq
            exact absurd hrb (by decide)
          | succ k =>
            rw [show apply_diff_safe env (runMuts env s ops) path diff true =
                (⟨false, true, false, true⟩,
                  { runMuts env s ops with
                    tree := anchorTree (runMuts env s ops) }) from by
                  simp [apply_diff_safe, hg, ha, ho]] at heq
            cases heq
            exact ⟨hanchor, fun p => by
              show (anchorTree (runMuts env s ops)).get p = cp.tree.get p
              rw [hanchor]⟩
        | timedOut =>
          rw [show apply_diff_safe env (runMuts env s ops) path diff true =
              (⟨false, true, false, true⟩,
                { runMuts env s ops with
                  tree := anchorTree (runMuts env s ops) }) from by
                simp [apply_diff_safe, hg, ha, ho]] at heq
          cases heq
          exact ⟨hanchor, fun p => by
            show (anchorTree (runMuts env s ops)).get p = cp.tree.get p
            rw [hanchor]⟩
        | spawnFailed =>
          rw [show apply_diff_safe env (runMuts env s ops) path diff true =
              (⟨false, true, false, true⟩,
                { runMuts env s ops with
                  tree := anchorTree (runMuts env s ops) }) from by
                simp [apply_diff_safe, hg, ha, ho]] at heq
          cases heq
          exact ⟨hanchor, fun p => by
            show (anchorTree (runMuts env s ops)).get p = cp.tree.get p
            rw [hanchor]⟩

/-- C2 witness: one unchecked mutation on the fixture session followed
by an explicit rollback restores exactly the checkpoint tree, and any
rolled-back gated run after it does too. -/
theorem C2_witness :
    (∃ s2, git_rollback
        (runMuts failEnv demoSession [MutOp.unchecked "main.py" "good"]) = .ok s2 ∧
      s2.tree = demoCheckpoint.tree ∧
      ∀ p, s2.tree.get p = demoCheckpoint.tree.get p) ∧
    (∀ path diff res s3,
      apply_diff_safe failEnv
        (runMuts failEnv demoSession [MutOp.unchecked "main.py" "good"])
        path diff true = (res, s3) →
      res.rolled_back = true →
      s3.tree = demoCheckpoint.tree ∧
      ∀ p, s3.tree.get p = demoCheckpoint.tree.get p) :=
  C2_rollback_round_trip failEnv demoSession demoCheckpoint
    [MutOp.unchecked "main.py" "good"] rfl

/-- C7: a request whose method is not in the ToolRegistry gets an error
response whose message contains "Method not found", the session state is
untouched, and the dispatcher loop processes all subsequent requests
exactly as it would have without the failing one. -/
theorem C7_unknown_method_recoverable (env : GateEnv) (s : Session)
    (req : Request) (h : req.method ∉ toolRegistry) :
    dispatch env s req =
      (⟨req.id, .err (-32601) ("Method not found: " ++ req.method)⟩, s) ∧
    containsText ("Method not found: " ++ req.method) "Method not found" ∧
    ∀ rest : List Request,
      dispatchAll env s (req :: rest) =
        ((⟨req.id, .err (-32601) ("Method not found: " ++ req.method)⟩ : Response)
            :: (dispatchAll env s rest).1,
          (dispatchAll env s rest).2) := by
  simp only [toolRegistry, List.mem_cons, List.not_mem_nil, or_false,
    not_or] at h
  obtain ⟨h1, h2, h3, h4, h5, h6, h7, h8, h9⟩ := h
  have hd : dispatch env s req =
      (⟨req.id, .err (-32601) ("Method not found: " ++ req.method)⟩, s) := by
    simp [dispatch, h1, h2, h3, h4, h5, h6, h7, h8, h9]
  refine ⟨hd, ⟨"", ": " ++ req.method, rfl⟩, ?_⟩
  intro rest
  simp [dispatchAll, hd]

/-- C7 witness: the literal request from the e2e test
test_mcp_invalid_method gets the Method-not-found error with the
session intact and the loop continuing. -/
theorem C7_witness :
    dispatch passEnv demoSession ⟨2, "nonexistent_method", "", "", true, ""⟩ =
      (⟨2, .err (-32601) "Method not found: nonexistent_method"⟩, demoSession) ∧
    containsText "Method not found: nonexistent_method" "Method not found" ∧
    ∀ rest : List Request,
      dispatchAll passEnv demoSession
          (⟨2, "nonexistent_method", "", "", true, ""⟩ :: rest) =
        ((⟨2, .err (-32601) "Method not found: nonexistent_method"⟩ : Response)
            :: (dispatchAll passEnv demoSession rest).1,
          (dispatchAll passEnv demoSession rest).2) :=
  C7_unknown_method_recoverable passEnv demoSession
    ⟨2, "nonexistent_method", "", "", true, ""⟩ (by decide)

/-- C8: `git_checkpoint` on a valid repository whose working tree equals
the current head is not an error: it succeeds with a fresh revision, the
new checkpoint snapshots the current tree and becomes the active
rollback anchor, and the tree content is unchanged. -/
theorem C8_checkpoint_with_nothing_to_commit (s : Session) (msg : String)
    (hvalid : s.validRepo = true) (hclean : s.tree = s.head) :
    ∃ s2, git_checkpoint s msg = .ok (s.nextRev, s2) ∧
      s2.checkpoint = some ⟨s.nextRev, msg, s.tree⟩ ∧
      s2.tree = s.tree ∧ s2.head = s.head := by
  refine ⟨{ s with
      head := s.tree
      headRev := s.nextRev
      nextRev := s.nextRev + 1
      checkpoint := some ⟨s.nextRev, msg, s.tree⟩ }, ?_, rfl, rfl, hclean⟩
  simp [git_checkpoint, hvalid]

/-- C8 witness: the fixture session has tree equal to head, and
checkpointing it succeeds and installs the anchor. -/
theorem C8_witness :
    ∃ s2, git_checkpoint demoSession "test checkpoint" =
        .ok (demoSession.nextRev, s2) ∧
      s2.checkpoint = some ⟨demoSession.nextRev, "test checkpoint",
        demoSession.tree⟩ ∧
      s2.tree = demoSession.tree ∧ s2.head = demoSession.head :=
  C8_checkpoint_with_nothing_to_commit demoSession "test checkpoint" rfl rfl

/-- C9: any two initialize requests, in any sessions and environments —
hence regardless of workspace contents — both return the identical,
complete registered tool list in the registry order, and neither call
changes the session. -/
theorem C9_init_complete_and_stable (env1 env2 : GateEnv)
    (s1 s2 : Session) (r1 r2 : Request)
    (h1 : r1.method = "initialize") (h2 : r2.method = "initialize") :
    (dispatch env1 s1 r1).1.out = .ok (.tools toolRegistry) ∧
    (dispatch env2 s2 r2).1.out = (dispatch env1 s1 r1).1.out ∧
    (dispatch env1 s1 r1).2 = s1 ∧ (dispatch env2 s2 r2).2 = s2 := by
  have d1 : dispatch env1 s1 r1 = (⟨r1.id, .ok (.tools toolRegistry)⟩, s1) := by
    simp [dispatch, h1]
  have d2 : dispatch env2 s2 r2 = (⟨r2.id, .ok (.tools toolRegistry)⟩, s2) := by
    simp [dispatch, h2]
  rw [d1, d2]
  exact ⟨rfl, rfl, rfl, rfl⟩

/-- C9 witness: two initialize calls with different identifiers, in two
different sessions and environments, return the same complete tool
list and leave both sessions unchanged. -/
theorem C9_witness :
    (dispatch passEnv demoSession ⟨1, "initialize", "", "", true, ""⟩).1.out =
      .ok (.tools toolRegistry) ∧
    (dispatch failEnv demoSessionNoCp ⟨7, "initialize", "", "", true, ""⟩).1.out =
      (dispatch passEnv demoSession ⟨1, "initialize", "", "", true, ""⟩).1.out ∧
    (dispatch passEnv demoSession ⟨1, "initialize", "", "", true, ""⟩).2 =
      demoSession ∧
    (dispatch failEnv demoSessionNoCp ⟨7, "initialize", "", "", true, ""⟩).2 =
      demoSessionNoCp :=
  C9_init_complete_and_stable passEnv failEnv demoSession demoSessionNoCp
    ⟨1, "initialize", "", "", true, ""⟩ ⟨7, "initialize", "", "", true, ""⟩
    rfl rfl

/-- A hex digit parses to a value below sixteen. -/
theorem hexDigitVal_lt {c : Char} {v : Nat} (h : hexDigitVal c = some v) :
    v < 16 := by
  simp only [hexDigitVal] at h
  split_ifs at h with ha hb hc
  · simp only [Option.some.injEq] at h
    omega
  · simp only [Option.some.injEq] at h
    omega
  · simp only [Option.some.injEq] at h
    omega

/-- Fallible map succeeds elementwise: when every element maps to a
value satisfying P, the whole map returns the list of values, of the
same length, all satisfying P. -/
theorem optionMapList_forall {α β : Type} (g : α → Option β)
    (P : β → Prop) (xs : List α)
    (h : ∀ x ∈ xs, ∃ b, g x = some b ∧ P b) :
    ∃ l, optionMapList g xs = some l ∧ l.length = xs.length ∧
      ∀ b ∈ l, P b := by
  induction xs with
  | nil => exact ⟨[], rfl, rfl, by simp⟩
  | cons x xs ih =>
    obtain ⟨b, hb, hPb⟩ := h x (List.mem_cons_self x xs)
    obtain ⟨l, hl, hlen, hall⟩ := ih (fun y hy => h y (List.mem_cons_of_mem x hy))
    refine ⟨b :: l, ?_, by simp [hlen], ?_⟩
    · simp [optionMapList, hb, hl]
    · intro c hc
      rcases List.mem_cons.mp hc with h1 | h2
      · exact h1 ▸ hPb
      · exact hall c h2

/-- Base-16 positional folding of digits below sixteen stays below the
corresponding power of sixteen. -/
theorem foldl_hex_bound (vs : List Nat) (hv : ∀ v ∈ vs, v < 16) :
    ∀ a : Nat, vs.foldl (fun acc v => 16 * acc + v) a <
      16 ^ vs.length * (a + 1) := by
  induction vs with
  | nil => intro a; simp
  | cons v vs ih =>
    intro a
    have hv16 : v < 16 := hv v (List.mem_cons_self v vs)
    have hrec := ih (fun w hw => hv w (List.mem_cons_of_mem v hw)) (16 * a + v)
    have hstep : 16 ^ vs.length * (16 * a + v + 1) ≤
        16 ^ (v :: vs).length * (a + 1) := by
      rw [List.length_cons, pow_succ]
      have hmul : 16 * a + v + 1 ≤ 16 * (a + 1) := by omega
      calc 16 ^ vs.length * (16 * a + v + 1)
          ≤ 16 ^ vs.length * (16 * (a + 1)) := Nat.mul_le_mul_left _ hmul
        _ = 16 ^ vs.length * 16 * (a + 1) := by ring
    calc (v :: vs).foldl (fun acc w => 16 * acc + w) a
        = vs.foldl (fun acc w => 16 * acc + w) (16 * a + v) := rfl
      _ < 16 ^ vs.length * (16 * a + v + 1) := hrec
      _ ≤ 16 ^ (v :: vs).length * (a + 1) := hstep

/-- A nonempty hex string of at most four digits parses to a value of
at most 65535. -/
theorem parseHexNat_bound (cs : List Char) (hne : cs ≠ [])
    (hhex : ∀ c ∈ cs, (hexDigitVal c).isSome) (hlen : cs.length ≤ 4) :
    ∃ n, parseHexNat cs = some n ∧ n ≤ 65535 := by
  obtain ⟨vs, hvs, hvslen, hvsall⟩ :=
    optionMapList_forall hexDigitVal (fun v => v < 16) cs
      (fun c hc => by
        obtain ⟨v, hv⟩ := Option.isSome_iff_exists.mp (hhex c hc)
        exact ⟨v, hv, hexDigitVal_lt hv⟩)
  refine ⟨vs.foldl (fun acc v => 16 * acc + v) 0, ?_, ?_⟩
  · cases cs with
    | nil => exact absurd rfl hne
    | cons c cs => simp [parseHexNat, hvs]
  · have hb := foldl_hex_bound vs hvsall 0
    have hexp : 16 ^ vs.length ≤ 16 ^ 4 :=
      Nat.pow_le_pow_right (by omega) (by omega)
    have h16 : (16 : ℕ) ^ 4 = 65536 := by norm_num
    omega

/-- C10: `embed_text` is determined solely by the SHA-256 hex digest of
the text (equal digests give equal embeddings), and on any 64-character
hex digest it returns exactly 16 values, each a rational in the closed
interval from 0 to 1 — not 384 values as the final truncation
suggests. -/
theorem C10_embed_text_sixteen_unit_values (sha256hex : String → String)
    (text : String) (hlen : (sha256hex text).length = 64)
    (hhex : ∀ c ∈ (sha256hex text).data, (hexDigitVal c).isSome) :
    ∃ l, embed_text sha256hex text = some l ∧ l.length = 16 ∧
      (∀ x ∈ l, 0 ≤ x ∧ x ≤ 1) ∧
      ∀ t2, sha256hex t2 = sha256hex text →
        embed_text sha256hex t2 = embed_text sha256hex text := by
  have hdlen : (sha256hex text).data.length = 64 := hlen
  have hq : ∀ i ∈ List.range' 0 16 4,
      ∃ q, (parseHexNat (((sha256hex text).data.drop i).take 4)).map
        (fun n => (n : ℚ) / 65535) = some q ∧ 0 ≤ q ∧ q ≤ 1 := by
    intro i hi
    have hi60 : i ≤ 60 := by
      rw [List.mem_range'] at hi
      obtain ⟨k, hk, rfl⟩ := hi
      omega
    have hslen : (((sha256hex text).data.drop i).take 4).length = 4 := by
      simp [List.length_take, List.length_drop, hdlen]
      omega
    have hsne : ((sha256hex text).data.drop i).take 4 ≠ [] := by
      intro hcon
      rw [hcon] at hslen
      simp at hslen
    have hshex : ∀ c ∈ ((sha256hex text).data.drop i).take 4,
        (hexDigitVal c).isSome := by
      intro c hc
      exact hhex c (List.drop_subset _ _ (List.take_subset _ _ hc))
    obtain ⟨n, hn, hnb⟩ := parseHexNat_bound _ hsne hshex (by omega)
    refine ⟨(n : ℚ) / 65535, by simp [hn], by positivity, ?_⟩
    rw [div_le_one (by norm_num)]
    exact_mod_cast hnb
  obtain ⟨l, hl, hlen16, hall⟩ := optionMapList_forall _ _ _ hq
  have hlc : l.length = 16 := by simpa using hlen16
  refine ⟨l, ?_, hlc, hall, ?_⟩
  · simp only [embed_text, mock_embedding, hl]
    rw [List.take_of_length_le (by omega)]
  · intro t2 ht2
    simp [embed_text, ht2]

/-- C10 witness: on a concrete 64-character hex digest the embedding is
returned with 16 in-range values, and equal digests give the same
embedding. -/
theorem C10_witness :
    ∃ l, embed_text (fun _ => String.mk (List.replicate 64 'a')) "hello" =
        some l ∧ l.length = 16 ∧
      (∀ x ∈ l, 0 ≤ x ∧ x ≤ 1) ∧
      ∀ t2, (fun _ => String.mk (List.replicate 64 'a')) t2 =
          (fun _ => String.mk (List.replicate 64 'a')) "hello" →
        embed_text (fun _ => String.mk (List.replicate 64 'a')) t2 =
          embed_text (fun _ => String.mk (List.replicate 64 'a')) "hello" :=
  C10_embed_text_sixteen_unit_values
    (fun _ => String.mk (List.replicate 64 'a')) "hello" (by decide) (by decide)

end Dehydrator
